import Mathlib

/-!
Verification development for the RGBot color-role bot.

The source is `src/main.rs`: a Discord bot (serenity 0.5 era) that parses a
hex color token from a message, resolves or creates a guild role named after
that color, reassigns it to the author, and garbage-collects color roles no
member holds any more.  The definitions below are a shallow embedding of the
functions of `impl Handler` together with the serenity library calls they
make; the guild is modelled as an explicit state value threaded through the
operations.  Machine integers are modelled as `Nat` and `Int` with explicit
reductions where the code casts (the `as u8` cast on the anchor position).

A few pieces that the specification describes in detail (the contrast gate of
the Event Dispatcher, the background constant, the reject feedback) are not
present in the `src/` snapshot of `main.rs`; those are modelled from the
specification text and marked as such in their doc comments.
-/

/-- Hex digit as accepted by the character class of the message regex
of `Handler::new`, which is `[A-Fa-f0-9]` (both cases accepted). -/
def isHexDigit (c : Char) : Bool :=
  (48 ≤ c.toNat && c.toNat ≤ 57) || (65 ≤ c.toNat && c.toNat ≤ 70) ||
    (97 ≤ c.toNat && c.toNat ≤ 102)

/-- Numeric value of a hex digit character, as computed by
`u8::from_str_radix(_, 16)` on the regex capture. -/
def hexVal (c : Char) : Nat :=
  if c.toNat ≤ 57 then c.toNat - 48
  else if 97 ≤ c.toNat then c.toNat - 87
  else c.toNat - 55

/-- serenity `Colour`: a `u32` holding `0xRRGGBB`. -/
structure Colour where
  val : Nat
deriving Repr, DecidableEq

/-- serenity `Colour::from_rgb`: `(((r << 8) | g) << 8) | b` over `u8`
channels.  The `% 256` expresses the `u8` domain of the three arguments. -/
def Colour.from_rgb (r g b : Nat) : Colour :=
  ⟨((r % 256) * 256 + g % 256) * 256 + b % 256⟩

/-- Digit character for `d < 16` as produced by the Rust `UpperHex`
formatting used by serenity. -/
def upperHexChar (d : Nat) : Char :=
  if d < 10 then Char.ofNat (48 + d) else Char.ofNat (55 + d)

/-- serenity `Colour::hex`, which is `format!("{:06X}", self.0)`: uppercase
hex, zero-padded on the left to width 6.  Every `Colour` the program builds
comes from `Colour::from_rgb` and is therefore below `16 ^ 6`, where that
format is exactly the six digits written here (most significant first). -/
def Colour.hex (c : Colour) : String :=
  String.mk [upperHexChar (c.val / 1048576 % 16), upperHexChar (c.val / 65536 % 16),
    upperHexChar (c.val / 4096 % 16), upperHexChar (c.val / 256 % 16),
    upperHexChar (c.val / 16 % 16), upperHexChar (c.val % 16)]

/-- `Handler::parse_color`: the anchored regex
`^#([A-Fa-f0-9]{2})([A-Fa-f0-9]{2})([A-Fa-f0-9]{2})$` applied to the whole
message, the three two-digit captures read back with
`u8::from_str_radix(_, 16)` and packed with `Colour::from_rgb`. -/
def parse_color (msg : String) : Option Colour :=
  match msg.data with
  | [c0, h1, h2, h3, h4, h5, h6] =>
    if c0 == '#' && [h1, h2, h3, h4, h5, h6].all isHexDigit then
      some (Colour.from_rgb (hexVal h1 * 16 + hexVal h2) (hexVal h3 * 16 + hexVal h4)
        (hexVal h5 * 16 + hexVal h6))
    else none
  | _ => none

/-- `color_regex.is_match` on a role name: a full-string match of `#`
followed by exactly six hex digits (the same regex as `parse_color`). -/
def isColorName (s : String) : Bool :=
  match s.data with
  | c0 :: rest => c0 == '#' && rest.length == 6 && rest.all isHexDigit
  | [] => false

deriving instance DecidableEq for Except

/-- `BotError` of `main.rs`.  `NoColorRole` is the spec error
`MissingAnchorRole`; `DiscordError` wraps a platform error cause, which this
embedding does not inspect further. -/
inductive BotError where
  | NoColorRole : BotError
  | DiscordError : BotError
deriving Repr, DecidableEq

/-- A Discord role as used by the handler: id, name, colour attribute and
position (an `i64` in serenity, hence `Int`). -/
structure Role where
  id : Nat
  name : String
  colour : Nat
  position : Int
deriving Repr, DecidableEq

/-- A guild member: the user id and the list of role ids the member holds. -/
structure Member where
  id : Nat
  roles : List Nat
deriving Repr, DecidableEq

/-- A Discord user as the handler sees it: id and display name. -/
structure User where
  id : Nat
  name : String
deriving Repr, DecidableEq

/-- The guild state: its role set and member set.  serenity keeps both as
hash maps keyed by id; they are modelled as lists, and key uniqueness is a
`Nodup` hypothesis on the theorems that need it. -/
structure Guild where
  roles : List Role
  members : List Member
deriving Repr, DecidableEq

/-- serenity `Guild::role_by_name`: a role with the given name, if any. -/
def Guild.role_by_name (g : Guild) (n : String) : Option Role :=
  g.roles.find? (fun r => r.name == n)

/-- Member lookup by user id (serenity `Guild::member`). -/
def Guild.findMember (g : Guild) (uid : Nat) : Option Member :=
  g.members.find? (fun m => m.id == uid)

/-- Point update of the member with the given user id. -/
def Guild.updateMember (g : Guild) (uid : Nat) (f : Member → Member) : Guild :=
  { g with members := g.members.map (fun m => if m.id == uid then f m else m) }

/-- The fresh id Discord assigns to a newly created role: distinct from
every role id already present in the guild. -/
def Guild.freshRoleId (g : Guild) : Nat :=
  (g.roles.map Role.id).foldr (fun a b => max a b) 0 + 1

/-- The Rust `as u8` cast applied to the `i64` role position: the low 8
bits, i.e. the value modulo 256 (two-complement wrapping for negatives). -/
def intAsU8 (p : Int) : Nat := (p % 256).toNat

/-- `Handler::get_color_role_position`: the position of the "colors" anchor
role cast to `u8`; `NoColorRole` when the guild has no such role. -/
def get_color_role_position (g : Guild) : Except BotError Nat :=
  match g.role_by_name "colors" with
  | some r => .ok (intAsU8 r.position)
  | none => .error BotError.NoColorRole

/-- serenity `Guild::create_role` with the builder used in
`get_or_create_role`: a fresh role with the given name, colour attribute and
position, appended to the role set. -/
def Guild.create_role (g : Guild) (n : String) (colour : Nat) (position : Nat) : Role × Guild :=
  let role : Role := { id := g.freshRoleId, name := n, colour := colour, position := (position : Int) }
  (role, { g with roles := g.roles ++ [role] })

/-- `Handler::get_or_create_role`: compute the canonical role name, read the
anchor position (may fail), return an existing role of that name unchanged,
otherwise create one with the colour value and the anchor position. -/
def get_or_create_role (g : Guild) (color : Colour) : Except BotError (Role × Guild) :=
  match get_color_role_position g with
  | .error e => .error e
  | .ok pos =>
    match g.role_by_name ("#" ++ color.hex) with
    | some role => .ok (role, g)
    | none => .ok (g.create_role ("#" ++ color.hex) color.val pos)

/-- serenity `Member::roles(cache)`: `none` when the guild is not in the
cache, otherwise the guild roles whose id the member holds. -/
def Member.rolesIn (m : Member) (cache : Option Guild) : Option (List Role) :=
  cache.map (fun cg => cg.roles.filter (fun r => m.roles.contains r.id))

/-- `Handler::cleanup_roles`: collect every role id held by any member, then
delete every role whose name matches the color regex, whose id is held by no
member, and whose id is not the `used` (exempt) one. -/
def cleanup_roles (g : Guild) (used : Nat) : Guild :=
  let used_roles : List Nat := g.members.flatMap (fun m => m.roles)
  let empty_roles : List Role :=
    ((g.roles.filter (fun r => isColorName r.name)).filter
      (fun r => !(used_roles.contains r.id))).filter (fun r => r.id != used)
  { g with roles := g.roles.filter (fun r => !((empty_roles.map Role.id).contains r.id)) }

/-- `Handler::assign_color`.  `cache` is the cached guild consulted by the
`member.roles(context.cache)` read on line 77; when it is `none` that read
yields no value and `unwrap_or(vec![])` substitutes the empty list.  The
first component of the result is the guild state afterwards; the error cases
of this embedding (missing anchor, member lookup failure) occur before any
mutation, so they return the state unchanged. -/
def assign_color (g : Guild) (cache : Option Guild) (user : User) (color : Colour) :
    Guild × Except BotError (String × String) :=
  match get_or_create_role g color with
  | .error e => (g, .error e)
  | .ok (role, g1) =>
    match g1.findMember user.id with
    | none => (g1, .error BotError.DiscordError)
    | some member =>
      let old_colors : List Nat :=
        (((member.rolesIn cache).getD []).filter (fun r => isColorName r.name)).map Role.id
      let g2 := g1.updateMember user.id
        (fun m => { m with roles := m.roles.filter (fun rid => !(old_colors.contains rid)) })
      let g3 := g2.updateMember user.id
        (fun m => { m with roles := if m.roles.contains role.id then m.roles else m.roles ++ [role.id] })
      (cleanup_roles g3 role.id, .ok (role.name, user.name))

/-- The guild state right after the resolve-or-create step of
`assign_color`, i.e. the state the member-role read observes when the cache
is consistent with the guild. -/
def resolveGuild (g : Guild) (color : Colour) : Guild :=
  match get_or_create_role g color with
  | .ok (_, g1) => g1
  | .error _ => g

/-- `Handler::message` as it stands in the `src/` snapshot: parse the
message, resolve the guild, and assign; the snapshot has no contrast gate. -/
def handler_message (gctx : Option Guild) (cache : Option Guild) (author : User)
    (content : String) : Option Guild :=
  match parse_color content with
  | none => gctx
  | some color =>
    match gctx with
    | some g => some (assign_color g cache author color).1
    | none => none

/-- Modelled from the spec: the fixed background reference color
`0x36393E`, i.e. RGB (0x36, 0x39, 0x3E).  The constant is described in the
spec (section 4.1 and section 6) but is absent from the `src/` snapshot. -/
def background : Colour := Colour.from_rgb 54 57 62

/-- Modelled from the spec: the accessibility contrast ratio
`(L_lighter + 0.05) / (L_darker + 0.05)` over the relative luminances of two
colors.  The relative-luminance computation is a floating-point formula; it
is taken as a parameter `lum` here, since everything proved below depends
only on the resulting comparison with the threshold. -/
def contrastScore (lum : Colour → ℚ) (a b : Colour) : ℚ :=
  (max (lum a) (lum b) + 1 / 20) / (min (lum a) (lum b) + 1 / 20)

/-- Feedback signal the Event Dispatcher emits for a message. -/
inductive Feedback where
  | silent : Feedback
  | reject : Feedback
  | accept : Feedback
deriving Repr, DecidableEq

/-- Modelled from the spec: the Event Dispatcher (section 4.5) with the
contrast gate of the Color Codec (section 4.1), both absent from the `src/`
snapshot of `main.rs` (whose `Handler::message` assigns directly).  A
parseable color scoring at or below the threshold (default 2.0) against the
fixed background is rejected with negative feedback before any role
mutation; otherwise the assignment transaction runs. -/
def dispatch_message (lum : Colour → ℚ) (threshold : ℚ) (gctx : Option Guild)
    (cache : Option Guild) (author : User) (content : String) : Option Guild × Feedback :=
  match parse_color content with
  | none => (gctx, .silent)
  | some color =>
    if contrastScore lum color background ≤ threshold then (gctx, .reject)
    else
      match gctx with
      | none => (gctx, .silent)
      | some g =>
        match assign_color g cache author color with
        | (g2, .ok _) => (some g2, .accept)
        | (g2, .error _) => (some g2, .silent)

/-- Lowercase digit character for `d < 16`. -/
def lowerHexChar (d : Nat) : Char :=
  if d < 10 then Char.ofNat (48 + d) else Char.ofNat (87 + d)

/-- The canonical textual form exactly as the spec words it (section 3):
`#RRGGBB` with lowercase, zero-padded hex digits.  Stated from the spec for
comparison with the role name the code actually builds. -/
def specCanonicalText (c : Colour) : String :=
  String.mk ['#', lowerHexChar (c.val / 1048576 % 16), lowerHexChar (c.val / 65536 % 16),
    lowerHexChar (c.val / 4096 % 16), lowerHexChar (c.val / 256 % 16),
    lowerHexChar (c.val / 16 % 16), lowerHexChar (c.val % 16)]

/-- ASCII lowercasing of a character (uppercase letters shifted by 32). -/
def lowerChar (c : Char) : Char :=
  if 65 ≤ c.toNat && c.toNat ≤ 90 then Char.ofNat (c.toNat + 32) else c

/-- ASCII lowercasing of a string. -/
def asciiLower (s : String) : String := String.mk (s.data.map lowerChar)

/-- Uppercase hex digit or decimal digit, as appearing in the role names the
code creates. -/
def isUpperHexDigit (c : Char) : Bool :=
  (48 ≤ c.toNat && c.toNat ≤ 57) || (65 ≤ c.toNat && c.toNat ≤ 70)

/-! ### Basic facts about the color codec -/

theorem hash_append (l : List Char) : "#" ++ String.mk l = String.mk ('#' :: l) := rfl

theorem asciiLower_mk (l : List Char) : asciiLower (String.mk l) = String.mk (l.map lowerChar) := rfl

theorem parse_color_mk (c0 h1 h2 h3 h4 h5 h6 : Char) :
    parse_color (String.mk [c0, h1, h2, h3, h4, h5, h6]) =
      if c0 == '#' && [h1, h2, h3, h4, h5, h6].all isHexDigit then
        some (Colour.from_rgb (hexVal h1 * 16 + hexVal h2) (hexVal h3 * 16 + hexVal h4)
          (hexVal h5 * 16 + hexVal h6))
      else none := rfl

theorem isColorName_mk (c0 : Char) (rest : List Char) :
    isColorName (String.mk (c0 :: rest)) =
      (c0 == '#' && rest.length == 6 && rest.all isHexDigit) := rfl

theorem upperHexChar_facts : ∀ d : Fin 16,
    isHexDigit (upperHexChar d.val) = true ∧ hexVal (upperHexChar d.val) = d.val ∧
      isUpperHexDigit (upperHexChar d.val) = true ∧
      isHexDigit (lowerChar (upperHexChar d.val)) = true ∧
      hexVal (lowerChar (upperHexChar d.val)) = d.val := by decide

theorem lowerChar_hash : lowerChar '#' = '#' := by decide

theorem uhc_isHex (d : Nat) (hd : d < 16) : isHexDigit (upperHexChar d) = true :=
  (upperHexChar_facts ⟨d, hd⟩).1

theorem uhc_val (d : Nat) (hd : d < 16) : hexVal (upperHexChar d) = d :=
  (upperHexChar_facts ⟨d, hd⟩).2.1

theorem uhc_isUpper (d : Nat) (hd : d < 16) : isUpperHexDigit (upperHexChar d) = true :=
  (upperHexChar_facts ⟨d, hd⟩).2.2.1

theorem uhc_lower_isHex (d : Nat) (hd : d < 16) :
    isHexDigit (lowerChar (upperHexChar d)) = true :=
  (upperHexChar_facts ⟨d, hd⟩).2.2.2.1

theorem uhc_lower_val (d : Nat) (hd : d < 16) : hexVal (lowerChar (upperHexChar d)) = d :=
  (upperHexChar_facts ⟨d, hd⟩).2.2.2.2

theorem parse_color_hex_upper (v : Nat) (hv : v < 16777216) :
    parse_color ("#" ++ Colour.hex ⟨v⟩) = some ⟨v⟩ := by
  have f1 := uhc_isHex (v / 1048576 % 16) (by omega)
  have f2 := uhc_isHex (v / 65536 % 16) (by omega)
  have f3 := uhc_isHex (v / 4096 % 16) (by omega)
  have f4 := uhc_isHex (v / 256 % 16) (by omega)
  have f5 := uhc_isHex (v / 16 % 16) (by omega)
  have f6 := uhc_isHex (v % 16) (by omega)
  have g1 := uhc_val (v / 1048576 % 16) (by omega)
  have g2 := uhc_val (v / 65536 % 16) (by omega)
  have g3 := uhc_val (v / 4096 % 16) (by omega)
  have g4 := uhc_val (v / 256 % 16) (by omega)
  have g5 := uhc_val (v / 16 % 16) (by omega)
  have g6 := uhc_val (v % 16) (by omega)
  simp only [Colour.hex]
  rw [hash_append, parse_color_mk, if_pos (by simp [f1, f2, f3, f4, f5, f6])]
  rw [g1, g2, g3, g4, g5, g6]
  simp only [Colour.from_rgb, Option.some.injEq, Colour.mk.injEq]
  omega

theorem parse_color_hex_lower (v : Nat) (hv : v < 16777216) :
    parse_color (asciiLower ("#" ++ Colour.hex ⟨v⟩)) = some ⟨v⟩ := by
  have f1 := uhc_lower_isHex (v / 1048576 % 16) (by omega)
  have f2 := uhc_lower_isHex (v / 65536 % 16) (by omega)
  have f3 := uhc_lower_isHex (v / 4096 % 16) (by omega)
  have f4 := uhc_lower_isHex (v / 256 % 16) (by omega)
  have f5 := uhc_lower_isHex (v / 16 % 16) (by omega)
  have f6 := uhc_lower_isHex (v % 16) (by omega)
  have g1 := uhc_lower_val (v / 1048576 % 16) (by omega)
  have g2 := uhc_lower_val (v / 65536 % 16) (by omega)
  have g3 := uhc_lower_val (v / 4096 % 16) (by omega)
  have g4 := uhc_lower_val (v / 256 % 16) (by omega)
  have g5 := uhc_lower_val (v / 16 % 16) (by omega)
  have g6 := uhc_lower_val (v % 16) (by omega)
  simp only [Colour.hex]
  rw [hash_append, asciiLower_mk]
  simp only [List.map_cons, List.map_nil, lowerChar_hash]
  rw [parse_color_mk, if_pos (by simp [f1, f2, f3, f4, f5, f6])]
  rw [g1, g2, g3, g4, g5, g6]
  simp only [Colour.from_rgb, Option.some.injEq, Colour.mk.injEq]
  omega

/-- C8: for every ColorValue, `parse` applied to the canonical text the code
builds for it (hash sign plus six zero-padded hex digits) returns the value
back, and the hex digits are accepted case-insensitively: the all-lowercase
spelling of that text parses to the same value. -/
theorem parse_roundtrip_canonical (c : Colour) (hc : c.val < 16777216) :
    parse_color ("#" ++ c.hex) = some c ∧ parse_color (asciiLower ("#" ++ c.hex)) = some c := by
  obtain ⟨v⟩ := c
  exact ⟨parse_color_hex_upper v hc, parse_color_hex_lower v hc⟩

theorem parse_roundtrip_canonical_witness :
    (1715004 : Nat) < 16777216 ∧
      (parse_color ("#" ++ Colour.hex ⟨1715004⟩) = some ⟨1715004⟩ ∧
        parse_color (asciiLower ("#" ++ Colour.hex ⟨1715004⟩)) = some ⟨1715004⟩) :=
  ⟨by norm_num, parse_roundtrip_canonical ⟨1715004⟩ (by norm_num)⟩

theorem parse_isSome_eq (s : String) : (parse_color s).isSome = isColorName s := by
  obtain ⟨l⟩ := s
  rcases l with _ | ⟨c0, _ | ⟨a1, _ | ⟨a2, _ | ⟨a3, _ | ⟨a4, _ | ⟨a5, _ | ⟨a6, _ | ⟨a7, t⟩⟩⟩⟩⟩⟩⟩⟩
  · rfl
  · show (false : Bool) = isColorName (String.mk [c0])
    rw [isColorName_mk]; simp
  · show (false : Bool) = isColorName (String.mk [c0, a1])
    rw [isColorName_mk]; simp
  · show (false : Bool) = isColorName (String.mk [c0, a1, a2])
    rw [isColorName_mk]; simp
  · show (false : Bool) = isColorName (String.mk [c0, a1, a2, a3])
    rw [isColorName_mk]; simp
  · show (false : Bool) = isColorName (String.mk [c0, a1, a2, a3, a4])
    rw [isColorName_mk]; simp
  · show (false : Bool) = isColorName (String.mk [c0, a1, a2, a3, a4, a5])
    rw [isColorName_mk]; simp
  · rw [parse_color_mk, isColorName_mk]
    cases h0 : (c0 == '#') <;> cases hall : ([a1, a2, a3, a4, a5, a6].all isHexDigit) <;>
      simp [h0, hall]
  · show (false : Bool) = isColorName (String.mk (c0 :: a1 :: a2 :: a3 :: a4 :: a5 :: a6 :: a7 :: t))
    rw [isColorName_mk]
    cases hlen : ((a1 :: a2 :: a3 :: a4 :: a5 :: a6 :: a7 :: t : List Char).length == 6) with
    | false => simp [hlen]
    | true =>
      have hl := eq_of_beq hlen
      simp only [List.length_cons] at hl
      omega

/-- C9: `parse` returns `none` for every input that is not a full-string
match of a hash sign followed by exactly six hex digits — extra leading or
trailing characters, a wrong digit count, non-hex characters, or a missing
hash sign are all rejected.  (`isColorName` is exactly that anchored match:
it is the same regex the code compiles once and reuses.) -/
theorem parse_rejects_nonmatching (s : String) (h : isColorName s = false) :
    parse_color s = none := by
  have he := parse_isSome_eq s
  rw [h] at he
  cases hp : parse_color s with
  | none => rfl
  | some c => rw [hp] at he; simp at he

theorem parse_rejects_nonmatching_witness :
    (isColorName "color: #1a2b3c" = false ∧ parse_color "color: #1a2b3c" = none) ∧
      (isColorName "#1a2b3c " = false ∧ parse_color "#1a2b3c " = none) ∧
      (isColorName "#1a2b3" = false ∧ parse_color "#1a2b3" = none) ∧
      (isColorName "#1a2b3cd" = false ∧ parse_color "#1a2b3cd" = none) ∧
      (isColorName "1a2b3c" = false ∧ parse_color "1a2b3c" = none) ∧
      (isColorName "#1g2b3c" = false ∧ parse_color "#1g2b3c" = none) :=
  ⟨⟨by decide, parse_rejects_nonmatching "color: #1a2b3c" (by decide)⟩,
    ⟨by decide, parse_rejects_nonmatching "#1a2b3c " (by decide)⟩,
    ⟨by decide, parse_rejects_nonmatching "#1a2b3" (by decide)⟩,
    ⟨by decide, parse_rejects_nonmatching "#1a2b3cd" (by decide)⟩,
    ⟨by decide, parse_rejects_nonmatching "1a2b3c" (by decide)⟩,
    ⟨by decide, parse_rejects_nonmatching "#1g2b3c" (by decide)⟩⟩

/-! ### List and guild helper lemmas -/

theorem find?_append_some {α : Type} (p : α → Bool) (l1 l2 : List α) (a : α)
    (h : l1.find? p = some a) : (l1 ++ l2).find? p = some a := by
  rw [List.find?_append, h]; rfl

theorem find?_append_none {α : Type} (p : α → Bool) (l1 l2 : List α)
    (h : l1.find? p = none) : (l1 ++ l2).find? p = l2.find? p := by
  rw [List.find?_append, h]; rfl

theorem le_foldr_max (l : List Nat) (a : Nat) (h : a ∈ l) :
    a ≤ l.foldr (fun x y => max x y) 0 := by
  induction l with
  | nil => cases h
  | cons x t ih =>
    rcases List.mem_cons.mp h with rfl | ht
    · exact Nat.le_max_left _ _
    · exact Nat.le_trans (ih ht) (Nat.le_max_right _ _)

theorem freshRoleId_ne (g : Guild) (r : Role) (hr : r ∈ g.roles) : r.id ≠ g.freshRoleId := by
  have := le_foldr_max (g.roles.map Role.id) r.id (List.mem_map_of_mem Role.id hr)
  unfold Guild.freshRoleId
  omega

theorem nodup_append_single {α : Type} (l : List α) (a : α) (h : l.Nodup) (ha : a ∉ l) :
    (l ++ [a]).Nodup := by
  induction l with
  | nil => simp
  | cons x t ih =>
    rw [List.cons_append, List.nodup_cons]
    rw [List.nodup_cons] at h
    refine ⟨?_, ih h.2 (fun hm => ha (List.mem_cons_of_mem _ hm))⟩
    intro hx
    rcases List.mem_append.mp hx with h1 | h1
    · exact h.1 h1
    · rw [List.mem_singleton] at h1
      subst h1
      exact ha (List.mem_cons_self _ _)

theorem eq_of_mem_nodup_ids (l : List Role) (hnd : (l.map Role.id).Nodup)
    (r1 r2 : Role) (h1 : r1 ∈ l) (h2 : r2 ∈ l) (hid : r1.id = r2.id) : r1 = r2 := by
  induction l with
  | nil => cases h1
  | cons a t ih =>
    rw [List.map_cons, List.nodup_cons] at hnd
    rcases List.mem_cons.mp h1 with rfl | h1t
    · rcases List.mem_cons.mp h2 with rfl | h2t
      · rfl
      · exact absurd (by rw [hid]; exact List.mem_map_of_mem Role.id h2t) hnd.1
    · rcases List.mem_cons.mp h2 with rfl | h2t
      · exact absurd (by rw [← hid]; exact List.mem_map_of_mem Role.id h1t) hnd.1
      · exact ih hnd.2 h1t h2t

theorem nodup_eq_singleton {α : Type} (l : List α) (x : α) (hnd : l.Nodup)
    (hx : x ∈ l) (hall : ∀ y ∈ l, y = x) : l = [x] := by
  cases l with
  | nil => cases hx
  | cons a t =>
    have ha : a = x := hall a (List.mem_cons_self a t)
    cases t with
    | nil => rw [ha]
    | cons b t2 =>
      exfalso
      rw [List.nodup_cons] at hnd
      have hb : b = x := hall b (List.mem_cons_of_mem a (List.mem_cons_self b t2))
      exact hnd.1 (by rw [ha, ← hb]; exact List.mem_cons_self b t2)

theorem find?_id_cons_pos (a : Member) (t : List Member) (uid : Nat)
    (ha : (a.id == uid) = true) :
    (a :: t).find? (fun x => x.id == uid) = some a :=
  List.find?_cons_of_pos t ha

theorem find?_id_cons_neg (a : Member) (t : List Member) (uid : Nat)
    (ha : ¬(a.id == uid) = true) :
    (a :: t).find? (fun x => x.id == uid) = t.find? (fun x => x.id == uid) :=
  List.find?_cons_of_neg t ha

theorem find?_map_update (l : List Member) (uid : Nat) (f : Member → Member)
    (hf : ∀ x, (f x).id = x.id) (m : Member)
    (h : l.find? (fun x => x.id == uid) = some m) :
    (l.map (fun x => if x.id == uid then f x else x)).find? (fun x => x.id == uid) =
      some (f m) := by
  induction l with
  | nil => simp at h
  | cons a t ih =>
    by_cases ha : (a.id == uid) = true
    · rw [find?_id_cons_pos a t uid ha] at h
      injection h with hm
      rw [List.map_cons, if_pos ha,
        find?_id_cons_pos (f a) _ uid (by rw [hf a]; exact ha), hm]
    · rw [find?_id_cons_neg a t uid ha] at h
      rw [List.map_cons, if_neg ha, find?_id_cons_neg a _ uid ha]
      exact ih h

theorem findMember_updateMember (g : Guild) (uid : Nat) (f : Member → Member)
    (hf : ∀ x, (f x).id = x.id) (m : Member) (h : g.findMember uid = some m) :
    (g.updateMember uid f).findMember uid = some (f m) :=
  find?_map_update g.members uid f hf m h

theorem role_by_name_append_of_some (g : Guild) (rs : List Role) (n : String) (a : Role)
    (h : g.role_by_name n = some a) :
    ({ g with roles := g.roles ++ rs } : Guild).role_by_name n = some a :=
  find?_append_some _ _ _ _ h

theorem role_by_name_append_none (g : Guild) (rs : List Role) (n : String)
    (h : g.role_by_name n = none) :
    ({ g with roles := g.roles ++ rs } : Guild).role_by_name n =
      rs.find? (fun r => r.name == n) :=
  find?_append_none _ _ _ h

/-- Shape of a successful `get_or_create_role`: the returned role carries the
canonical name, members are untouched, the returned guild resolves the
canonical name to that very role and still has its anchor, and the role set
either is unchanged (role found) or has exactly the new role appended, with
an id no existing role carries. -/
theorem get_or_create_role_spec (g : Guild) (c : Colour) (role : Role) (g1 : Guild)
    (h : get_or_create_role g c = .ok (role, g1)) :
    role.name = "#" ++ c.hex ∧ g1.members = g.members ∧
      g1.role_by_name ("#" ++ c.hex) = some role ∧ g1.role_by_name "colors" ≠ none ∧
      (g1.roles = g.roles ∨
        (g1.roles = g.roles ++ [role] ∧ ∀ x ∈ g.roles, x.id ≠ role.id)) := by
  unfold get_or_create_role at h
  cases hp : get_color_role_position g with
  | error e => simp [hp] at h
  | ok pos =>
    simp only [hp] at h
    have hanch : g.role_by_name "colors" ≠ none := by
      intro hn
      simp [get_color_role_position, hn] at hp
    cases hf : g.role_by_name ("#" ++ c.hex) with
    | some r0 =>
      simp only [hf] at h
      simp only [Except.ok.injEq, Prod.mk.injEq] at h
      obtain ⟨h1, h2⟩ := h
      subst h1; subst h2
      have hf2 : g.roles.find? (fun r => r.name == ("#" ++ c.hex)) = some r0 := hf
      have hp0 := List.find?_some hf2
      exact ⟨beq_iff_eq.mp hp0, rfl, hf, hanch, Or.inl rfl⟩
    | none =>
      simp only [hf] at h
      simp only [Guild.create_role, Except.ok.injEq, Prod.mk.injEq] at h
      obtain ⟨h1, h2⟩ := h
      subst h1; subst h2
      refine ⟨rfl, rfl, ?_, ?_, Or.inr ⟨rfl, fun x hx => freshRoleId_ne g x hx⟩⟩
      · rw [role_by_name_append_none g _ _ hf]
        exact List.find?_cons_of_pos _ (by simp)
      · cases hc2 : g.role_by_name "colors" with
        | none => exact absurd hc2 hanch
        | some a =>
          rw [role_by_name_append_of_some g _ "colors" a hc2]
          simp

/-! ### Claims about the Role Resolver and the missing-anchor error -/

/-- C5: when the guild has no role named "colors", any assignment attempt
fails with the missing-anchor error (`NoColorRole`, the spec error
`MissingAnchorRole`) and returns the guild completely unchanged: no role is
created, no membership is changed, no role is deleted. -/
theorem missing_anchor_no_mutation (g : Guild) (cache : Option Guild) (u : User) (c : Colour)
    (h : g.role_by_name "colors" = none) :
    assign_color g cache u c = (g, .error BotError.NoColorRole) := by
  simp [assign_color, get_or_create_role, get_color_role_position, h]

theorem missing_anchor_no_mutation_witness :
    Guild.role_by_name ⟨[⟨1, "general", 0, 1⟩], [⟨7, [1]⟩]⟩ "colors" = none ∧
      assign_color ⟨[⟨1, "general", 0, 1⟩], [⟨7, [1]⟩]⟩ none ⟨7, "alice"⟩ ⟨1715004⟩ =
        (⟨[⟨1, "general", 0, 1⟩], [⟨7, [1]⟩]⟩, .error BotError.NoColorRole) :=
  ⟨by decide, missing_anchor_no_mutation _ none ⟨7, "alice"⟩ ⟨1715004⟩ (by decide)⟩

/-- C6: the Role Resolver is idempotent.  If a call returns role `r` and
guild state `g2`, calling it again on `g2` with the same color returns the
same role `r` and leaves the state exactly `g2`: the same role identifier is
produced both times, no duplicate role is created, and no existing role
(colour or position included) is modified by the second call. -/
theorem resolver_idempotent (g : Guild) (c : Colour) (r : Role) (g2 : Guild)
    (h : get_or_create_role g c = .ok (r, g2)) :
    get_or_create_role g2 c = .ok (r, g2) := by
  obtain ⟨-, -, hB, hA, -⟩ := get_or_create_role_spec g c r g2 h
  unfold get_or_create_role get_color_role_position
  cases ha : g2.role_by_name "colors" with
  | none => exact absurd ha hA
  | some anchor => simp [hB]

theorem resolver_idempotent_witness :
    get_or_create_role ⟨[⟨1, "colors", 0, 5⟩], []⟩ ⟨1715004⟩ =
        .ok (⟨2, "#1A2B3C", 1715004, 5⟩,
          ⟨[⟨1, "colors", 0, 5⟩, ⟨2, "#1A2B3C", 1715004, 5⟩], []⟩) ∧
      get_or_create_role ⟨[⟨1, "colors", 0, 5⟩, ⟨2, "#1A2B3C", 1715004, 5⟩], []⟩ ⟨1715004⟩ =
        .ok (⟨2, "#1A2B3C", 1715004, 5⟩,
          ⟨[⟨1, "colors", 0, 5⟩, ⟨2, "#1A2B3C", 1715004, 5⟩], []⟩) :=
  ⟨by decide, resolver_idempotent ⟨[⟨1, "colors", 0, 5⟩], []⟩ ⟨1715004⟩
    ⟨2, "#1A2B3C", 1715004, 5⟩ ⟨[⟨1, "colors", 0, 5⟩, ⟨2, "#1A2B3C", 1715004, 5⟩], []⟩
    (by decide)⟩

/-- C7 counterexample: the claim that a newly created color role always gets
a position equal to the anchor rank is false as stated ("at any rank"): the
code casts the `i64` position with `as u8`, so an anchor at rank 256 yields
a new role at rank 0, not 256. -/
theorem create_position_claim_false :
    ¬ (∀ (g : Guild) (c : Colour) (anchor ro : Role) (g1 : Guild),
        g.role_by_name "colors" = some anchor →
        g.role_by_name ("#" ++ c.hex) = none →
        get_or_create_role g c = .ok (ro, g1) →
        ro.position = anchor.position) := by
  intro hclaim
  have h := hclaim ⟨[⟨1, "colors", 0, 256⟩], []⟩ ⟨1715004⟩ ⟨1, "colors", 0, 256⟩
    ⟨2, "#1A2B3C", 1715004, 0⟩ ⟨[⟨1, "colors", 0, 256⟩, ⟨2, "#1A2B3C", 1715004, 0⟩], []⟩
    (by decide) (by decide) (by decide)
  exact absurd h (by decide)

/-- C7 amended: a newly created color role carries the requested colour
value, and its position is the anchor rank reduced by the `as u8` cast, that
is `anchor.position % 256`; whenever the anchor rank lies in `[0, 256)` (as
every real Discord rank does) this is the anchor rank itself. -/
theorem create_position_mod256 (g : Guild) (c : Colour) (anchor ro : Role) (g1 : Guild)
    (ha : g.role_by_name "colors" = some anchor)
    (hnew : g.role_by_name ("#" ++ c.hex) = none)
    (h : get_or_create_role g c = .ok (ro, g1)) :
    ro.colour = c.val ∧ ro.position = anchor.position % 256 ∧
      (0 ≤ anchor.position → anchor.position < 256 → ro.position = anchor.position) := by
  unfold get_or_create_role get_color_role_position at h
  simp only [ha, hnew, Guild.create_role, Except.ok.injEq, Prod.mk.injEq] at h
  obtain ⟨h1, h2⟩ := h
  subst h1
  have hmod : ((intAsU8 anchor.position : Nat) : Int) = anchor.position % 256 := by
    unfold intAsU8
    exact Int.toNat_of_nonneg (Int.emod_nonneg _ (by norm_num))
  refine ⟨rfl, hmod, fun h0 h256 => ?_⟩
  rw [hmod]
  exact Int.emod_eq_of_lt h0 h256

theorem create_position_mod256_witness :
    Guild.role_by_name ⟨[⟨1, "colors", 0, 5⟩], []⟩ "colors" = some ⟨1, "colors", 0, 5⟩ ∧
      Guild.role_by_name ⟨[⟨1, "colors", 0, 5⟩], []⟩ ("#" ++ Colour.hex ⟨1715004⟩) = none ∧
      get_or_create_role ⟨[⟨1, "colors", 0, 5⟩], []⟩ ⟨1715004⟩ =
        .ok (⟨2, "#1A2B3C", 1715004, 5⟩,
          ⟨[⟨1, "colors", 0, 5⟩, ⟨2, "#1A2B3C", 1715004, 5⟩], []⟩) ∧
      (Role.colour ⟨2, "#1A2B3C", 1715004, 5⟩ = 1715004 ∧
        Role.position ⟨2, "#1A2B3C", 1715004, 5⟩ = (5 : Int) % 256 ∧
        ((0 : Int) ≤ 5 → (5 : Int) < 256 → Role.position ⟨2, "#1A2B3C", 1715004, 5⟩ = 5)) :=
  ⟨by decide, by decide, by decide,
    create_position_mod256 ⟨[⟨1, "colors", 0, 5⟩], []⟩ ⟨1715004⟩ ⟨1, "colors", 0, 5⟩
      ⟨2, "#1A2B3C", 1715004, 5⟩ ⟨[⟨1, "colors", 0, 5⟩, ⟨2, "#1A2B3C", 1715004, 5⟩], []⟩
      (by decide) (by decide) (by decide)⟩

/-- C2 counterexample: the claim that the resolved role is named with
lowercase hex digits is false: the code names roles with
`format!("#{}", color.hex())`, and serenity `Colour::hex` formats with
`{:06X}` (uppercase), so the color parsed from `#1a2b3c` yields a role named
`#1A2B3C`, not `#1a2b3c`. -/
theorem role_name_lowercase_false :
    ¬ (∀ (g : Guild) (c : Colour) (ro : Role) (g1 : Guild),
        get_or_create_role g c = .ok (ro, g1) → ro.name = specCanonicalText c) := by
  intro hclaim
  have h := hclaim ⟨[⟨1, "colors", 0, 5⟩], []⟩ ⟨1715004⟩ ⟨2, "#1A2B3C", 1715004, 5⟩
    ⟨[⟨1, "colors", 0, 5⟩, ⟨2, "#1A2B3C", 1715004, 5⟩], []⟩ (by decide)
  exact absurd h (by decide)

/-- C2 amended: for every ColorValue, the role created (or looked up) by the
Role Resolver is named the canonical text the code builds: a hash sign
followed by exactly six uppercase, zero-padded hex digits (posting `#1a2b3c`
or `#1A2B3C` yields a role named `#1A2B3C`). -/
theorem role_name_upper_canonical (g : Guild) (c : Colour) (ro : Role) (g1 : Guild)
    (h : get_or_create_role g c = .ok (ro, g1)) :
    ro.name = "#" ++ c.hex ∧
      ∃ ds : List Char, ro.name.data = '#' :: ds ∧ ds.length = 6 ∧
        ∀ ch ∈ ds, isUpperHexDigit ch = true := by
  obtain ⟨hname, -, -, -, -⟩ := get_or_create_role_spec g c ro g1 h
  refine ⟨hname, ?_⟩
  obtain ⟨v⟩ := c
  rw [hname]
  refine ⟨[upperHexChar (v / 1048576 % 16), upperHexChar (v / 65536 % 16),
    upperHexChar (v / 4096 % 16), upperHexChar (v / 256 % 16),
    upperHexChar (v / 16 % 16), upperHexChar (v % 16)], ?_, rfl, ?_⟩
  · simp only [Colour.hex]
    rw [hash_append]
  · intro ch hch
    simp only [List.mem_cons, List.not_mem_nil, or_false] at hch
    rcases hch with rfl | rfl | rfl | rfl | rfl | rfl
    · exact uhc_isUpper _ (by omega)
    · exact uhc_isUpper _ (by omega)
    · exact uhc_isUpper _ (by omega)
    · exact uhc_isUpper _ (by omega)
    · exact uhc_isUpper _ (by omega)
    · exact uhc_isUpper _ (by omega)

theorem role_name_upper_canonical_witness :
    get_or_create_role ⟨[⟨1, "colors", 0, 5⟩], []⟩ ⟨1715004⟩ =
        .ok (⟨2, "#1A2B3C", 1715004, 5⟩,
          ⟨[⟨1, "colors", 0, 5⟩, ⟨2, "#1A2B3C", 1715004, 5⟩], []⟩) ∧
      (Role.name ⟨2, "#1A2B3C", 1715004, 5⟩ = "#" ++ Colour.hex ⟨1715004⟩ ∧
        ∃ ds : List Char, (Role.name ⟨2, "#1A2B3C", 1715004, 5⟩).data = '#' :: ds ∧
          ds.length = 6 ∧ ∀ ch ∈ ds, isUpperHexDigit ch = true) :=
  ⟨by decide,
    role_name_upper_canonical ⟨[⟨1, "colors", 0, 5⟩], []⟩ ⟨1715004⟩
      ⟨2, "#1A2B3C", 1715004, 5⟩ ⟨[⟨1, "colors", 0, 5⟩, ⟨2, "#1A2B3C", 1715004, 5⟩], []⟩
      (by decide)⟩

/-! ### The contrast gate and the failed member-role read -/

/-- C1: a message whose whole content parses as a color, and whose contrast
ratio against the fixed background is at or below the threshold, is rejected
by the dispatcher before any role mutation: the guild context is returned
untouched (no role created, assigned, removed or deleted) and the negative
feedback signal is emitted.  The luminance function is universally
quantified, so this covers whichever floating-point luminance the
implementation computes. -/
theorem contrast_reject_no_mutation (lum : Colour → ℚ) (threshold : ℚ)
    (gctx cache : Option Guild) (u : User) (content : String) (c : Colour)
    (hp : parse_color content = some c)
    (hc : contrastScore lum c background ≤ threshold) :
    dispatch_message lum threshold gctx cache u content = (gctx, Feedback.reject) := by
  unfold dispatch_message
  simp only [hp, if_pos hc]

theorem contrast_reject_no_mutation_witness :
    parse_color "#36393e" = some background ∧
      contrastScore (fun _ => 0) background background ≤ 2 ∧
      dispatch_message (fun _ => 0) 2 (some ⟨[⟨1, "colors", 0, 5⟩], [⟨7, []⟩]⟩) none
          ⟨7, "alice"⟩ "#36393e" =
        (some ⟨[⟨1, "colors", 0, 5⟩], [⟨7, []⟩]⟩, Feedback.reject) :=
  ⟨by decide, by norm_num [contrastScore],
    contrast_reject_no_mutation (fun _ => 0) 2 (some ⟨[⟨1, "colors", 0, 5⟩], [⟨7, []⟩]⟩)
      none ⟨7, "alice"⟩ "#36393e" background (by decide) (by norm_num [contrastScore])⟩

/-- C10: when the member-role read fails (the guild is not in the cache, so
`member.roles(cache)` yields no value and `unwrap_or(vec![])` substitutes the
empty list), the assignment treats the previous color role set as empty and
proceeds: it removes nothing from the member, still adds the resolved role,
and returns success — so a member already holding a color role ends up
holding more than one. -/
theorem failed_roles_read_keeps_old (g : Guild) (u : User) (c : Colour) (role : Role)
    (g1 : Guild) (member : Member)
    (hres : get_or_create_role g c = .ok (role, g1))
    (hfm : g1.findMember u.id = some member) :
    (assign_color g none u c).2 = .ok (role.name, u.name) ∧
      ∃ m2, (assign_color g none u c).1.findMember u.id = some m2 ∧
        m2.roles = (if member.roles.contains role.id then member.roles
          else member.roles ++ [role.id]) := by
  have hfil : ∀ l : List Nat, l.filter (fun rid => !(([] : List Nat).contains rid)) = l := by
    intro l
    induction l with
    | nil => rfl
    | cons a t ih => rw [List.filter_cons]; simp [ih]
  have hassign : assign_color g none u c =
      (cleanup_roles ((g1.updateMember u.id (fun m => m)).updateMember u.id
          (fun m => { m with roles := if m.roles.contains role.id then m.roles
            else m.roles ++ [role.id] })) role.id,
        .ok (role.name, u.name)) := by
    unfold assign_color
    simp only [hres, hfm]
    have hid : (fun m : Member => ({ m with roles := m.roles.filter (fun rid =>
        !(((((member.rolesIn none).getD []).filter (fun r => isColorName r.name)).map
          Role.id).contains rid)) } : Member)) = (fun m : Member => m) := by
      funext m
      show ({ m with roles := m.roles.filter (fun rid =>
        !(([] : List Nat).contains rid)) } : Member) = m
      rw [hfil m.roles]
    rw [hid]
  rw [hassign]
  refine ⟨rfl, { member with roles := if member.roles.contains role.id then member.roles
    else member.roles ++ [role.id] }, ?_, rfl⟩
  have h1 : (g1.updateMember u.id (fun m => m)).findMember u.id = some member :=
    findMember_updateMember g1 u.id (fun m => m) (fun x => rfl) member hfm
  exact findMember_updateMember (g1.updateMember u.id (fun m => m)) u.id
    (fun m => { m with roles := if m.roles.contains role.id then m.roles
      else m.roles ++ [role.id] }) (fun x => rfl) member h1

theorem failed_roles_read_keeps_old_witness :
    get_or_create_role ⟨[⟨1, "colors", 0, 5⟩, ⟨2, "#AAAAAA", 11184810, 5⟩], [⟨7, [2]⟩]⟩
        ⟨1715004⟩ =
      .ok (⟨3, "#1A2B3C", 1715004, 5⟩,
        ⟨[⟨1, "colors", 0, 5⟩, ⟨2, "#AAAAAA", 11184810, 5⟩, ⟨3, "#1A2B3C", 1715004, 5⟩],
          [⟨7, [2]⟩]⟩) ∧
    Guild.findMember
        ⟨[⟨1, "colors", 0, 5⟩, ⟨2, "#AAAAAA", 11184810, 5⟩, ⟨3, "#1A2B3C", 1715004, 5⟩],
          [⟨7, [2]⟩]⟩ 7 = some ⟨7, [2]⟩ ∧
    ((assign_color ⟨[⟨1, "colors", 0, 5⟩, ⟨2, "#AAAAAA", 11184810, 5⟩], [⟨7, [2]⟩]⟩ none
          ⟨7, "alice"⟩ ⟨1715004⟩).2 = .ok ("#1A2B3C", "alice") ∧
      ∃ m2, (assign_color ⟨[⟨1, "colors", 0, 5⟩, ⟨2, "#AAAAAA", 11184810, 5⟩], [⟨7, [2]⟩]⟩
          none ⟨7, "alice"⟩ ⟨1715004⟩).1.findMember 7 = some m2 ∧
        m2.roles = [2, 3]) ∧
    ((assign_color ⟨[⟨1, "colors", 0, 5⟩, ⟨2, "#AAAAAA", 11184810, 5⟩], [⟨7, [2]⟩]⟩ none
        ⟨7, "alice"⟩ ⟨1715004⟩).1.findMember 7 = some ⟨7, [2, 3]⟩ ∧
      isColorName "#AAAAAA" = true ∧ isColorName "#1A2B3C" = true) :=
  ⟨by decide, by decide,
    failed_roles_read_keeps_old
      ⟨[⟨1, "colors", 0, 5⟩, ⟨2, "#AAAAAA", 11184810, 5⟩], [⟨7, [2]⟩]⟩ ⟨7, "alice"⟩
      ⟨1715004⟩ ⟨3, "#1A2B3C", 1715004, 5⟩
      ⟨[⟨1, "colors", 0, 5⟩, ⟨2, "#AAAAAA", 11184810, 5⟩, ⟨3, "#1A2B3C", 1715004, 5⟩],
        [⟨7, [2]⟩]⟩ ⟨7, [2]⟩ (by decide) (by decide),
    ⟨by decide, by decide, by decide⟩⟩

/-! ### The Orphan Collector -/

theorem cleanup_roles_roles (g : Guild) (used : Nat) :
    (cleanup_roles g used).roles = g.roles.filter (fun r =>
      !(((((g.roles.filter (fun x => isColorName x.name)).filter
        (fun x => !((g.members.flatMap (fun m => m.roles)).contains x.id))).filter
        (fun x => x.id != used)).map Role.id).contains r.id)) := rfl

theorem cleanup_roles_members (g : Guild) (used : Nat) :
    (cleanup_roles g used).members = g.members := rfl

theorem not_contains_of_not_mem (l : List Nat) (a : Nat) (h : a ∉ l) :
    (!(l.contains a)) = true := by
  cases hc : l.contains a with
  | false => rfl
  | true => exact absurd (by simpa using hc) h

theorem isColorName_canonical (c : Colour) : isColorName ("#" ++ c.hex) = true := by
  obtain ⟨v⟩ := c
  have f1 := uhc_isHex (v / 1048576 % 16) (by omega)
  have f2 := uhc_isHex (v / 65536 % 16) (by omega)
  have f3 := uhc_isHex (v / 4096 % 16) (by omega)
  have f4 := uhc_isHex (v / 256 % 16) (by omega)
  have f5 := uhc_isHex (v / 16 % 16) (by omega)
  have f6 := uhc_isHex (v % 16) (by omega)
  simp only [Colour.hex]
  rw [hash_append, isColorName_mk]
  simp [f1, f2, f3, f4, f5, f6]

/-- C4: every role the Orphan Collector deletes matches the color-role name
pattern, is referenced by no member of the guild, and is not the exempt
(`used`) role.  In particular the collector never deletes a role currently
held by any member and never deletes the exempt role. -/
theorem cleanup_deletes_only_orphans (g : Guild) (used : Nat) (r : Role)
    (hnd : (g.roles.map Role.id).Nodup)
    (hr : r ∈ g.roles) (hdel : r ∉ (cleanup_roles g used).roles) :
    isColorName r.name = true ∧ (∀ m ∈ g.members, r.id ∉ m.roles) ∧ r.id ≠ used := by
  rw [cleanup_roles_roles] at hdel
  have hq2 : r.id ∈ (((g.roles.filter (fun x => isColorName x.name)).filter
      (fun x => !((g.members.flatMap (fun m => m.roles)).contains x.id))).filter
      (fun x => x.id != used)).map Role.id := by
    by_contra hq2
    apply hdel
    apply List.mem_filter.mpr
    exact ⟨hr, by simpa using hq2⟩
  obtain ⟨e, he, heid⟩ := List.mem_map.mp hq2
  rw [List.mem_filter] at he
  obtain ⟨he2, hene⟩ := he
  rw [List.mem_filter] at he2
  obtain ⟨he3, heu⟩ := he2
  rw [List.mem_filter] at he3
  obtain ⟨heg, hec⟩ := he3
  have her : e = r := eq_of_mem_nodup_ids g.roles hnd e r heg hr heid
  subst her
  refine ⟨hec, ?_, bne_iff_ne.mp hene⟩
  intro m hm hinm
  have hused : e.id ∈ g.members.flatMap (fun x => x.roles) :=
    List.mem_flatMap.mpr ⟨m, hm, hinm⟩
  have hcc : (g.members.flatMap (fun x => x.roles)).contains e.id = true := by
    simpa using hused
  rw [hcc] at heu
  exact absurd heu (by decide)

theorem cleanup_deletes_only_orphans_witness :
    ((Guild.roles ⟨[⟨1, "colors", 0, 5⟩, ⟨2, "#AAAAAA", 11184810, 5⟩,
        ⟨3, "#BBBBBB", 12303291, 5⟩, ⟨4, "#CCCCCC", 13421772, 5⟩],
        [⟨7, [3]⟩]⟩).map Role.id).Nodup ∧
      (⟨2, "#AAAAAA", 11184810, 5⟩ : Role) ∈ Guild.roles ⟨[⟨1, "colors", 0, 5⟩,
        ⟨2, "#AAAAAA", 11184810, 5⟩, ⟨3, "#BBBBBB", 12303291, 5⟩,
        ⟨4, "#CCCCCC", 13421772, 5⟩], [⟨7, [3]⟩]⟩ ∧
      (⟨2, "#AAAAAA", 11184810, 5⟩ : Role) ∉ (cleanup_roles ⟨[⟨1, "colors", 0, 5⟩,
        ⟨2, "#AAAAAA", 11184810, 5⟩, ⟨3, "#BBBBBB", 12303291, 5⟩,
        ⟨4, "#CCCCCC", 13421772, 5⟩], [⟨7, [3]⟩]⟩ 4).roles ∧
      (isColorName "#AAAAAA" = true ∧
        (∀ m ∈ Guild.members ⟨[⟨1, "colors", 0, 5⟩, ⟨2, "#AAAAAA", 11184810, 5⟩,
          ⟨3, "#BBBBBB", 12303291, 5⟩, ⟨4, "#CCCCCC", 13421772, 5⟩], [⟨7, [3]⟩]⟩,
          (2 : Nat) ∉ m.roles) ∧ (2 : Nat) ≠ 4) ∧
      (⟨3, "#BBBBBB", 12303291, 5⟩ : Role) ∈ (cleanup_roles ⟨[⟨1, "colors", 0, 5⟩,
        ⟨2, "#AAAAAA", 11184810, 5⟩, ⟨3, "#BBBBBB", 12303291, 5⟩,
        ⟨4, "#CCCCCC", 13421772, 5⟩], [⟨7, [3]⟩]⟩ 4).roles ∧
      (⟨4, "#CCCCCC", 13421772, 5⟩ : Role) ∈ (cleanup_roles ⟨[⟨1, "colors", 0, 5⟩,
        ⟨2, "#AAAAAA", 11184810, 5⟩, ⟨3, "#BBBBBB", 12303291, 5⟩,
        ⟨4, "#CCCCCC", 13421772, 5⟩], [⟨7, [3]⟩]⟩ 4).roles :=
  ⟨by decide, by decide, by decide,
    cleanup_deletes_only_orphans ⟨[⟨1, "colors", 0, 5⟩, ⟨2, "#AAAAAA", 11184810, 5⟩,
        ⟨3, "#BBBBBB", 12303291, 5⟩, ⟨4, "#CCCCCC", 13421772, 5⟩], [⟨7, [3]⟩]⟩ 4
      ⟨2, "#AAAAAA", 11184810, 5⟩ (by decide) (by decide) (by decide),
    by decide, by decide⟩

/-! ### Exclusivity of the Assignment Transaction -/

/-- C3: when the Assignment Transaction succeeds for member M with color C
(with the member-role read observing the current state, i.e. the cache holds
the post-resolve guild), the final guild has a role named with the canonical
text of C, M resolves to a member holding role ids among which exactly one
names a color-pattern role of the guild — the resolved role: every
previously held color-pattern role of M (however many there were) has been
removed and the resolved role added. -/
theorem assign_exclusivity (g : Guild) (u : User) (c : Colour) (gf : Guild) (rn un : String)
    (hnd : (g.roles.map Role.id).Nodup)
    (h : assign_color g (some (resolveGuild g c)) u c = (gf, .ok (rn, un))) :
    ∃ role m2, role ∈ gf.roles ∧ role.name = "#" ++ c.hex ∧ isColorName role.name = true ∧
      gf.findMember u.id = some m2 ∧
      gf.roles.filter (fun r => m2.roles.contains r.id && isColorName r.name) = [role] := by
  cases hres : get_or_create_role g c with
  | error e => simp [assign_color, hres] at h
  | ok pr =>
    obtain ⟨role, g1⟩ := pr
    have hrg : resolveGuild g c = g1 := by simp [resolveGuild, hres]
    rw [hrg] at h
    cases hfm : g1.findMember u.id with
    | none => simp [assign_color, hres, hfm] at h
    | some member =>
      unfold assign_color at h
      simp only [hres, hfm, Member.rolesIn, Option.map_some', Option.getD_some] at h
      rw [Prod.mk.injEq] at h
      obtain ⟨hgf, hout⟩ := h
      set OLD : List Nat := List.map Role.id (List.filter (fun r => isColorName r.name)
        (List.filter (fun r => member.roles.contains r.id) g1.roles)) with hOLD
      obtain ⟨hname, hmembers, hbyname, -, hroles⟩ := get_or_create_role_spec g c role g1 hres
      have hrole_g1 : role ∈ g1.roles := by
        have hb2 : g1.roles.find? (fun r => r.name == ("#" ++ c.hex)) = some role := hbyname
        exact List.mem_of_find?_eq_some hb2
      have hcolor : isColorName role.name = true := by
        rw [hname]; exact isColorName_canonical c
      have hnd1 : (g1.roles.map Role.id).Nodup := by
        rcases hroles with hsame | ⟨happ, hfresh⟩
        · rw [hsame]; exact hnd
        · rw [happ, List.map_append]
          simp only [List.map_cons, List.map_nil]
          refine nodup_append_single _ _ hnd ?_
          intro hmm
          obtain ⟨x, hx, hxid⟩ := List.mem_map.mp hmm
          exact hfresh x hx hxid
      set mfil : List Nat := member.roles.filter (fun rid => !(OLD.contains rid)) with hmfil
      have hnotin : role.id ∉ mfil := by
        by_cases hin : role.id ∈ member.roles
        · have hinOLD : role.id ∈ OLD := by
            rw [hOLD]
            exact List.mem_map.mpr ⟨role, List.mem_filter.mpr
              ⟨List.mem_filter.mpr ⟨hrole_g1, by simpa using hin⟩, hcolor⟩, rfl⟩
          intro hmem
          rw [hmfil, List.mem_filter] at hmem
          have hc2 : OLD.contains role.id = true := by simpa using hinOLD
          rw [hc2] at hmem
          exact absurd hmem.2 (by decide)
        · intro hmem
          rw [hmfil] at hmem
          exact hin (List.mem_of_mem_filter hmem)
      have hccf : mfil.contains role.id = false := by simpa using hnotin
      have hm2eq : (fun m : Member => { m with roles := if m.roles.contains role.id
          then m.roles else m.roles ++ [role.id] })
          ({ member with roles := mfil } : Member) =
          ({ member with roles := mfil ++ [role.id] } : Member) := by
        show ({ member with roles := if mfil.contains role.id then mfil
          else mfil ++ [role.id] } : Member) = _
        rw [hccf]
        rfl
      have hfm1 := findMember_updateMember g1 u.id
        (fun m => { m with roles := m.roles.filter (fun rid => !(OLD.contains rid)) })
        (fun x => rfl) member hfm
      have hfm2 := findMember_updateMember
        (g1.updateMember u.id
          (fun m => { m with roles := m.roles.filter (fun rid => !(OLD.contains rid)) }))
        u.id
        (fun m => { m with roles := if m.roles.contains role.id then m.roles
          else m.roles ++ [role.id] })
        (fun x => rfl) ({ member with roles := mfil } : Member) hfm1
      rw [hm2eq] at hfm2
      have hrolegf : role ∈ gf.roles := by
        rw [← hgf, cleanup_roles_roles]
        refine List.mem_filter.mpr ⟨hrole_g1, ?_⟩
        have hexempt : ∀ L : List Role,
            role.id ∉ (L.filter (fun x => x.id != role.id)).map Role.id := by
          intro L hmm
          obtain ⟨e, he, heid⟩ := List.mem_map.mp hmm
          exact bne_iff_ne.mp (List.mem_filter.mp he).2 heid
        exact not_contains_of_not_mem _ _ (hexempt _)
      have hsub : ∀ y, y ∈ gf.roles → y ∈ g1.roles := by
        intro y hy
        rw [← hgf, cleanup_roles_roles] at hy
        exact List.mem_of_mem_filter hy
      have hg1nd : g1.roles.Nodup := hnd1.of_map Role.id
      have hgfnd : gf.roles.Nodup := by
        rw [← hgf, cleanup_roles_roles]
        exact hg1nd.filter _
      refine ⟨role, { member with roles := mfil ++ [role.id] }, hrolegf, hname, hcolor, ?_, ?_⟩
      · rw [← hgf]
        exact hfm2
      · show gf.roles.filter (fun r => (mfil ++ [role.id]).contains r.id &&
          isColorName r.name) = [role]
        have hroleS : role ∈ gf.roles.filter (fun r => (mfil ++ [role.id]).contains r.id &&
            isColorName r.name) := by
          refine List.mem_filter.mpr ⟨hrolegf, ?_⟩
          rw [Bool.and_eq_true]
          exact ⟨by simp, hcolor⟩
        have hallS : ∀ y ∈ gf.roles.filter (fun r => (mfil ++ [role.id]).contains r.id &&
            isColorName r.name), y = role := by
          intro y hy
          rw [List.mem_filter] at hy
          obtain ⟨hygf, hycond⟩ := hy
          rw [Bool.and_eq_true] at hycond
          obtain ⟨hyc1, hyc2⟩ := hycond
          have hyg1 : y ∈ g1.roles := hsub y hygf
          have hyid : y.id ∈ mfil ++ [role.id] := by simpa using hyc1
          rcases List.mem_append.mp hyid with hyf | hys
          · exfalso
            rw [hmfil, List.mem_filter] at hyf
            obtain ⟨hymem, hynot⟩ := hyf
            have hyOLD : y.id ∈ OLD := by
              rw [hOLD]
              exact List.mem_map.mpr ⟨y, List.mem_filter.mpr
                ⟨List.mem_filter.mpr ⟨hyg1, by simpa using hymem⟩, hyc2⟩, rfl⟩
            have hcc : OLD.contains y.id = true := by simpa using hyOLD
            rw [hcc] at hynot
            exact absurd hynot (by decide)
          · have hyr : y.id = role.id := by simpa using hys
            exact eq_of_mem_nodup_ids g1.roles hnd1 y role hyg1 hrole_g1 hyr
        exact nodup_eq_singleton _ role (hgfnd.filter _) hroleS hallS

theorem assign_exclusivity_witness :
    ((Guild.roles ⟨[⟨1, "colors", 0, 5⟩, ⟨2, "#AAAAAA", 11184810, 5⟩,
        ⟨3, "#BBBBBB", 12303291, 5⟩], [⟨7, [2, 3]⟩]⟩).map Role.id).Nodup ∧
      assign_color ⟨[⟨1, "colors", 0, 5⟩, ⟨2, "#AAAAAA", 11184810, 5⟩,
          ⟨3, "#BBBBBB", 12303291, 5⟩], [⟨7, [2, 3]⟩]⟩
        (some (resolveGuild ⟨[⟨1, "colors", 0, 5⟩, ⟨2, "#AAAAAA", 11184810, 5⟩,
          ⟨3, "#BBBBBB", 12303291, 5⟩], [⟨7, [2, 3]⟩]⟩ ⟨1715004⟩))
        ⟨7, "alice"⟩ ⟨1715004⟩ =
        (⟨[⟨1, "colors", 0, 5⟩, ⟨4, "#1A2B3C", 1715004, 5⟩], [⟨7, [4]⟩]⟩,
          .ok ("#1A2B3C", "alice")) ∧
      (∃ role m2,
        role ∈ Guild.roles ⟨[⟨1, "colors", 0, 5⟩, ⟨4, "#1A2B3C", 1715004, 5⟩], [⟨7, [4]⟩]⟩ ∧
        role.name = "#" ++ Colour.hex ⟨1715004⟩ ∧ isColorName role.name = true ∧
        Guild.findMember ⟨[⟨1, "colors", 0, 5⟩, ⟨4, "#1A2B3C", 1715004, 5⟩], [⟨7, [4]⟩]⟩ 7 =
          some m2 ∧
        (Guild.roles ⟨[⟨1, "colors", 0, 5⟩, ⟨4, "#1A2B3C", 1715004, 5⟩],
          [⟨7, [4]⟩]⟩).filter (fun r => m2.roles.contains r.id && isColorName r.name) =
          [role]) :=
  ⟨by decide, by decide,
    assign_exclusivity ⟨[⟨1, "colors", 0, 5⟩, ⟨2, "#AAAAAA", 11184810, 5⟩,
        ⟨3, "#BBBBBB", 12303291, 5⟩], [⟨7, [2, 3]⟩]⟩ ⟨7, "alice"⟩ ⟨1715004⟩
      ⟨[⟨1, "colors", 0, 5⟩, ⟨4, "#1A2B3C", 1715004, 5⟩], [⟨7, [4]⟩]⟩
      "#1A2B3C" "alice" (by decide) (by decide)⟩
